import Mathlib

/-!
# Verification of `market_analyzer.py`

A shallow embedding of the repository's `MarketAnalyzer` class
(`src/market_analyzer.py`) together with proofs about the claims of the
specification.

Modelling conventions:

* Python exceptions are explicit: a fallible step returns `Except Exn _`,
  where `Exn` distinguishes the exception classes the source treats
  differently (`requests.exceptions.RequestException` and `KeyError` are
  caught in `_fetch_from_source`; everything else propagates to the broad
  `except Exception` in `fetch_data`).
* Decoded JSON payloads are `JVal` trees.  Python's `float(...)` coercion of
  a string is abstracted into the data: `JVal.numStr q` is a string that
  `float` parses to `q`, `JVal.badStr s` is a string it rejects.  Calendar
  dates are modelled by a small `"Y-M-D"` parser (`parseDate`); bars carry
  concrete rational numbers (pandas `NaN` cells are folded into the error
  case, since every claim concerns frames of concrete numbers).
* A pandas `DataFrame` of OHLCV rows is a `Frame`: a list of
  (timestamp, `Bar`) pairs in row order, with timestamps as rationals.
* The HTTP transport is an arbitrary function from symbols to outcomes; an
  outcome is either a decoded JSON object or a raised exception (covering
  network failures and `response.json()` errors alike).
-/

/-- The Python exception classes relevant to `market_analyzer.py`'s
control flow.  Only `requestError` (`requests.exceptions.RequestException`)
and `keyError` are caught inside `_fetch_from_source`; all constructors are
caught by the blanket `except Exception` in `fetch_data`. -/
inductive Exn where
  | requestError
  | keyError
  | valueError
  | typeError
  | indexError
  | nameError
  deriving DecidableEq

/-- A decoded JSON value.  `numStr` is a string Python's `float` parses to
the given rational; `badStr` is a string `float` rejects. -/
inductive JVal where
  | null
  | num (q : ℚ)
  | numStr (q : ℚ)
  | badStr (s : String)
  | arr (xs : List JVal)
  | obj (fields : List (String × JVal))

/-- One OHLCV row of a pandas `DataFrame`, after numeric coercion. -/
structure Bar where
  open_ : ℚ
  high : ℚ
  low : ℚ
  close : ℚ
  volume : ℚ
  deriving DecidableEq

/-- A pandas `DataFrame` of OHLCV rows: (timestamp index, row) pairs in row
order.  Alpha Vantage timestamps are encoded dates, Yahoo timestamps are
epoch seconds; the pipeline only ever compares them. -/
abbrev Frame := List (ℚ × Bar)

/-- `mapE f` maps a fallible step over a list, propagating the first raised
exception — the effect of a Python loop or comprehension whose body may
raise. -/
def mapE {α β : Type} (f : α → Except Exn β) : List α → Except Exn (List β)
  | [] => .ok []
  | a :: as =>
    match f a with
    | .error e => .error e
    | .ok b =>
      match mapE f as with
      | .error e => .error e
      | .ok bs => .ok (b :: bs)

/-- Python `float(x)` on a DataFrame cell (`df.astype(float)`): JSON numbers
and numeric strings coerce, everything else raises `ValueError`. -/
def coerceFloat : JVal → Option ℚ
  | .num q => some q
  | .numStr q => some q
  | _ => none

/-- Splits a character list at every `'-'`. -/
def splitDash : List Char → List (List Char)
  | [] => [[]]
  | c :: rest =>
    let r := splitDash rest
    if c = '-' then [] :: r
    else
      match r with
      | g :: gs => (c :: g) :: gs
      | [] => [[c]]

/-- Reads a nonempty decimal digit string. -/
def digitsToNatAux : ℕ → List Char → Option ℕ
  | acc, [] => some acc
  | acc, c :: rest =>
    if c.isDigit then digitsToNatAux (acc * 10 + (c.toNat - 48)) rest else none

/-- Reads a nonempty decimal digit string. -/
def digitsToNat : List Char → Option ℕ
  | [] => none
  | l => digitsToNatAux 0 l

/-- `pd.to_datetime` on an index of `"Y-M-D"` date strings, modelled by a
small parser: three dash-separated decimal components, encoded injectively
(for zero-padded calendar dates) as `y*10000 + m*100 + d`. -/
def parseDate (s : String) : Option ℚ :=
  match (splitDash s.data).map digitsToNat with
  | [some y, some m, some d] => some (((y * 10000 + m * 100 + d : ℕ) : ℚ))
  | _ => none

/-- Keeps the first occurrence of each element, in first-occurrence order —
the column ordering `pd.DataFrame.from_dict(..., orient='index')` produces
from the union of the row dictionaries' keys. -/
def firstDedup : List String → List String
  | [] => []
  | x :: xs => x :: (firstDedup xs).filter (fun y => y ≠ x)

/-- The column list of `pd.DataFrame.from_dict(rows, orient='index')`: the
union of all row keys in first-seen order. -/
def colsOf (rows : List (List (String × JVal))) : List String :=
  firstDedup ((rows.map (fun r => r.map Prod.fst)).flatten)

/-- The cells of one row, read off in column order; a key a row lacks would
be a pandas `NaN` cell, represented as `JVal.null` (which the numeric
coercion subsequently rejects). -/
def cellsOf (row : List (String × JVal)) (cols : List String) : List JVal :=
  cols.map (fun c => ((row.lookup c).getD JVal.null))

/-- `df.astype(float)` on one renamed row: exactly five cells (the source
assigns the five column names `['open','high','low','close','volume']`
positionally), each coerced to a number; any non-coercible cell raises
`ValueError` for the whole frame. -/
def rowToBar (cells : List JVal) : Except Exn Bar :=
  match cells with
  | [o, h, l, c, v] =>
    match coerceFloat o, coerceFloat h, coerceFloat l, coerceFloat c, coerceFloat v with
    | some o', some h', some l', some c', some v' => .ok ⟨o', h', l', c', v'⟩
    | _, _, _, _, _ => .error .valueError
  | _ => .error .valueError

/-- `MarketAnalyzer._parse_alpha_response` (src/market_analyzer.py lines
97-116).  If `'Time Series (Daily)'` is not a key of the payload, the empty
frame is returned.  Otherwise the source runs
`pd.DataFrame.from_dict(daily_data, orient='index')`, converts the index
with `pd.to_datetime`, assigns the five column names positionally (raising
if the column count differs), and coerces every cell with `astype(float)`.
pandas raises on non-dict rows and on the various malformed shapes; those
raises are all folded into `valueError` here (none of them is a `KeyError`
or a `RequestException`, which is the only distinction the callers make).
`objStage` is `from_dict`'s demand that each row be a dictionary. -/
def objStage (p : String × JVal) : Except Exn (String × List (String × JVal)) :=
  match p.2 with
  | JVal.obj fields => .ok (p.1, fields)
  | _ => .error .valueError

/-- `pd.to_datetime` over one index entry. -/
def dateStage (p : String × List (String × JVal)) : Except Exn ℚ :=
  match parseDate p.1 with
  | some d => .ok d
  | none => .error .valueError

/-- The part of `_parse_alpha_response` past the guard, operating on
`daily_data = data['Time Series (Daily)']`: `from_dict`, index conversion,
positional column renaming, `astype(float)`. -/
def parseAlphaDaily (dd : JVal) : Except Exn Frame :=
  match dd with
  | .obj entries =>
    match mapE objStage entries with
    | .error e => .error e
    | .ok rows =>
      match mapE dateStage rows with
      | .error e => .error e
      | .ok ts =>
        if (colsOf (rows.map Prod.snd)).length = 5 then
          match mapE (fun p => rowToBar (cellsOf p.2 (colsOf (rows.map Prod.snd)))) rows with
          | .error e => .error e
          | .ok bars => .ok (ts.zip bars)
        else .error .valueError
  | _ => .error .valueError

/-- `MarketAnalyzer._parse_alpha_response`: the `'Time Series (Daily)' not
in data` guard (lines 107-108) followed by `parseAlphaDaily`. -/
def parse_alpha_response (data : List (String × JVal)) : Except Exn Frame :=
  match data.lookup "Time Series (Daily)" with
  | none => .ok []
  | some dd => parseAlphaDaily dd

/-- Python `'result' in chart` when `chart` is a decoded JSON list: string
equality against each element.  JSON strings appear as `numStr`/`badStr`;
only a `badStr` can hold the non-numeric text `"result"`. -/
def containsStrResult : List JVal → Bool
  | [] => false
  | JVal.badStr s :: rest => s = "result" || containsStrResult rest
  | _ :: rest => containsStrResult rest

/-- Python substring test `pat in s` for a nonempty pattern. -/
def occursIn (pat s : String) : Bool :=
  (s.splitOn pat).length > 1

/-- `pd.Timestamp(x, unit='s')` on one element of the `timestamp` array:
numbers are accepted, anything else raises (folded into `valueError`). -/
def coerceTs : JVal → Except Exn ℚ
  | .num q => .ok q
  | _ => .error .valueError

/-- Zips the five parallel OHLCV arrays into rows. -/
def zipBars : List ℚ → List ℚ → List ℚ → List ℚ → List ℚ → List Bar
  | o :: os, h :: hs, l :: ls, c :: cs, v :: vs =>
    ⟨o, h, l, c, v⟩ :: zipBars os hs ls cs vs
  | _, _, _, _, _ => []

/-- One of the five parallel value arrays
`result['indicators']['quote'][0][name]`: a missing key raises `KeyError`;
the source stores the array's elements in the frame unvalidated, which this
model (whose bars carry concrete rationals) renders by requiring numeric
elements, folding other shapes into a raise. -/
def quoteField (qf : List (String × JVal)) (name : String) : Except Exn (List ℚ) :=
  match qf.lookup name with
  | none => .error .keyError
  | some (JVal.arr xs) => mapE coerceTs xs
  | some _ => .error .typeError

/-- The body of `_parse_yahoo_response` past the guard, starting from
`result = data['chart']['result'][0]` (src/market_analyzer.py lines
131-141): build the timestamp index from `result['timestamp']`, then the
five OHLCV columns from `result['indicators']['quote'][0]`, index-aligned
(a length mismatch raises in the `pd.DataFrame` constructor).  Missing
dictionary keys raise `KeyError`; subscripting a non-container raises
`TypeError`; `[0]` of an empty list raises `IndexError`. -/
def parseYahooResult : JVal → Except Exn Frame
  | JVal.obj fields =>
    match fields.lookup "timestamp" with
    | none => .error .keyError
    | some (JVal.arr txs) =>
      match mapE coerceTs txs with
      | .error e => .error e
      | .ok tss =>
        match fields.lookup "indicators" with
        | none => .error .keyError
        | some (JVal.obj indf) =>
          match indf.lookup "quote" with
          | none => .error .keyError
          | some (JVal.arr []) => .error .indexError
          | some (JVal.arr (q0 :: _)) =>
            match q0 with
            | JVal.obj qf =>
              match quoteField qf "open" with
              | .error e => .error e
              | .ok os =>
                match quoteField qf "high" with
                | .error e => .error e
                | .ok hs =>
                  match quoteField qf "low" with
                  | .error e => .error e
                  | .ok ls =>
                    match quoteField qf "close" with
                    | .error e => .error e
                    | .ok cs =>
                      match quoteField qf "volume" with
                      | .error e => .error e
                      | .ok vs =>
                        if os.length = tss.length ∧ hs.length = tss.length
                            ∧ ls.length = tss.length ∧ cs.length = tss.length
                            ∧ vs.length = tss.length then
                          .ok (tss.zip (zipBars os hs ls cs vs))
                        else .error .valueError
            | _ => .error .typeError
          | some (JVal.obj _) => .error .keyError
          | some _ => .error .typeError
        | some _ => .error .typeError
    | some _ => .error .typeError
  | _ => .error .typeError

/-- `MarketAnalyzer._parse_yahoo_response` (src/market_analyzer.py lines
118-141).  The guard `'chart' not in data or 'result' not in data['chart']`
returns the empty frame; Python's `in` on a non-dictionary `data['chart']`
is list membership, a substring test, or a `TypeError`, depending on its
type. -/
def parse_yahoo_response (data : List (String × JVal)) : Except Exn Frame :=
  match data.lookup "chart" with
  | none => .ok []
  | some (JVal.obj cf) =>
    match cf.lookup "result" with
    | none => .ok []
    | some (JVal.arr []) => .error .indexError
    | some (JVal.arr (r0 :: _)) => parseYahooResult r0
    | some (JVal.obj _) => .error .keyError
    | some _ => .error .typeError
  | some (JVal.arr elems) =>
    if containsStrResult elems then .error .typeError else .ok []
  | some (JVal.badStr s) =>
    if occursIn "result" s then .error .typeError else .ok []
  | some (JVal.numStr _) => .ok []
  | some _ => .error .typeError

/-- Outcome of one `requests.get(...).json()` round trip: either a decoded
JSON object, or a raised exception (network failure, `response.json()`
failure, or anything else the transport may throw). -/
inductive TResp where
  | ok (body : List (String × JVal))
  | raise (e : Exn)

/-- The transport collaborator: each provider endpoint's behaviour for each
symbol. -/
structure Transport where
  alpha : String → TResp
  yahoo : String → TResp

/-- The `try`-block body of `MarketAnalyzer._fetch_from_source`
(src/market_analyzer.py lines 67-88): branch on the source tag, fetch and
decode, parse, return the frame if non-empty, `None` otherwise; an unknown
source logs a warning and returns `None`. -/
def fetchSourceBody (t : Transport) (symbol source : String) :
    Except Exn (Option Frame) :=
  match source with
  | "alpha_vantage" =>
    match t.alpha symbol with
    | .raise e => .error e
    | .ok body =>
      match parse_alpha_response body with
      | .error e => .error e
      | .ok df => .ok (if df = [] then none else some df)
  | "yahoo_finance" =>
    match t.yahoo symbol with
    | .raise e => .error e
    | .ok body =>
      match parse_yahoo_response body with
      | .error e => .error e
      | .ok df => .ok (if df = [] then none else some df)
  | _ => .ok none

/-- `MarketAnalyzer._fetch_from_source` (src/market_analyzer.py lines
56-95): the body, with `except requests.exceptions.RequestException` and
`except KeyError` both downgrading to `None`; every other exception
propagates to the caller. -/
def fetch_from_source (t : Transport) (symbol source : String) :
    Except Exn (Option Frame) :=
  match fetchSourceBody t symbol source with
  | .error .requestError => .ok none
  | .error .keyError => .ok none
  | r => r

/-- The `for source in self.data_sources` loop of `fetch_data`
(src/market_analyzer.py lines 34-38), instrumented with the list of sources
actually consulted: each source is fetched in order, non-`None` non-empty
frames are appended to `dfs`, and an exception propagating out of
`_fetch_from_source` aborts the loop. -/
def fetchLoop (t : Transport) (symbol : String) :
    List String → List String × Except Exn (List Frame)
  | [] => ([], .ok [])
  | s :: rest =>
    match fetch_from_source t symbol s with
    | .error e => ([s], .error e)
    | .ok odf =>
      let r := fetchLoop t symbol rest
      (s :: r.1,
        match r.2 with
        | .error e => .error e
        | .ok dfs =>
          .ok (match odf with
            | some df => if df = [] then dfs else df :: dfs
            | none => dfs))

/-- The instance state of `MarketAnalyzer`: the configured source list and
the stored `market_data` frame (both set in `__init__`). -/
structure AnalyzerState where
  data_sources : List String
  market_data : Frame
  deriving DecidableEq

/-- `MarketAnalyzer.__init__` (src/market_analyzer.py lines 18-20): the
hardcoded source list and an empty frame. -/
def analyzerInit : AnalyzerState :=
  ⟨["alpha_vantage", "yahoo_finance"], []⟩

/-- The `try`-block body of `MarketAnalyzer.fetch_data`
(src/market_analyzer.py lines 33-50).  After the loop, an empty `dfs`
returns `None`; otherwise the source computes `pd.concat(dfs)` and then
evaluates `combined_data.groupby(combined_dat.index)` — `combined_dat` is
an undefined name, so this line raises `NameError` before the state
assignment `self.market_data = combined_data` is ever reached. -/
def fetch_data_body (t : Transport) (st : AnalyzerState) (symbol : String) :
    Except Exn (AnalyzerState × Option Frame) :=
  match (fetchLoop t symbol st.data_sources).2 with
  | .error e => .error e
  | .ok dfs =>
    if dfs = [] then .ok (st, none)
    else .error .nameError

/-- `MarketAnalyzer.fetch_data` (src/market_analyzer.py lines 22-54): the
body wrapped in `try ... except Exception: return None`.  The new state is
returned alongside the result (`self.market_data` is only reassigned inside
the body, which — see `fetch_data_body` — never happens). -/
def fetch_data (t : Transport) (st : AnalyzerState) (symbol : String) :
    AnalyzerState × Option Frame :=
  match fetch_data_body t st symbol with
  | .ok r => r
  | .error _ => (st, none)

/-- The sources `fetch_data` actually consults, in order. -/
def consultedSources (t : Transport) (st : AnalyzerState) (symbol : String) :
    List String :=
  (fetchLoop t symbol st.data_sources).1

/-- `pd.concat(dfs)`: the rows of all frames, in list order. -/
def concatFrames (dfs : List Frame) : Frame :=
  dfs.flatten

/-- The combine step of `fetch_data` as evidently intended — the source's
line 46 reads `combined_data.groupby(combined_dat.index).first().sort_index()`
where `combined_dat` is an undefined name; spec §9 records the typo and the
intended deduplication by timestamp index.  `groupby(index).first()` keeps,
for each timestamp, the first row in concatenation order (rows carry no
`NaN` cells here), and `sort_index()` orders the timestamps ascending. -/
def dedupSort (f : Frame) : Frame :=
  (((f.map Prod.fst).dedup).insertionSort (· ≤ ·)).filterMap
    (fun ts => (f.find? (fun p => p.1 == ts)).map (fun p => (ts, p.2)))

/-- `fetch_data` with the `combined_dat` typo read as `combined_data`: the
merge runs, the state is replaced, and the combined frame is returned. -/
def fetch_data_fixed (t : Transport) (st : AnalyzerState) (symbol : String) :
    AnalyzerState × Option Frame :=
  match (fetchLoop t symbol st.data_sources).2 with
  | .error _ => (st, none)
  | .ok dfs =>
    if dfs = [] then (st, none)
    else
      let combined := dedupSort (concatFrames dfs)
      ({ st with market_data := combined }, some combined)

/-- The `close` column of a frame. -/
def closes (f : Frame) : List ℚ :=
  f.map (fun p => p.2.close)

/-- `series.rolling(w).mean()` (src/market_analyzer.py lines 156-158): at
position `i` the mean of the trailing `w` values, defined (non-`NaN`) only
once at least `w` values exist at or before `i`. -/
def rollingMean (w : ℕ) (xs : List ℚ) : List (Option ℚ) :=
  (List.range xs.length).map (fun i =>
    if w ≤ i + 1 then some (((xs.take (i + 1)).drop (i + 1 - w)).sum / (w : ℚ))
    else none)

/-- The trailing (most recent) entry of a rolling sequence, absent for the
empty series. -/
def trailing (l : List (Option ℚ)) : Option ℚ :=
  l.getLastD none

/-- The trend report: the trailing 20/50/200-day rolling averages of the
close (each absent when fewer bars than the window exist), the latest
close, and the trend label. -/
structure TrendReport where
  ma20 : Option ℚ
  ma50 : Option ℚ
  ma200 : Option ℚ
  current_price : ℚ
  label : String
  deriving DecidableEq

/-- Modelled from the spec: the trend-labelling policy of §4.4 — the
source's classification code is cut off at line 161 (`current_price =
self.market_data.iloc[-1`), so the comparison rule is reconstructed from
the spec's words: fewer than 20 bars is labelled `"insufficient-data"`;
otherwise the latest close is compared against the defined averages in
order, `"bullish"` for a strictly descending chain from the close,
`"bearish"` for a strictly ascending one, `"mixed"` otherwise. -/
def trendLabel (n : ℕ) (c : ℚ) (m20 m50 m200 : Option ℚ) : String :=
  if n < 20 then "insufficient-data"
  else
    match m20, m50, m200 with
    | some a, some b, some d =>
      if c > a ∧ a > b ∧ b > d then "bullish"
      else if c < a ∧ a < b ∧ b < d then "bearish"
      else "mixed"
    | some a, some b, none =>
      if c > a ∧ a > b then "bullish"
      else if c < a ∧ a < b then "bearish"
      else "mixed"
    | some a, none, none =>
      if c > a then "bullish"
      else if c < a then "bearish"
      else "mixed"
    | _, _, _ => "insufficient-data"

/-- `MarketAnalyzer.get_trend_analysis` (src/market_analyzer.py lines
143-161), as a function of the stored `market_data` frame.  An empty frame
returns `{}` (modelled as `none`); otherwise the three rolling averages are
computed over the close column (lines 156-158).  Modelled from the spec:
the assembly of the returned dictionary and the labelling rule, from §4.4 —
the source is cut off mid-expression at line 161. -/
def get_trend_analysis (f : Frame) : Option TrendReport :=
  if f = [] then none
  else
    some ⟨trailing (rollingMean 20 (closes f)), trailing (rollingMean 50 (closes f)),
          trailing (rollingMean 200 (closes f)), (closes f).getLastD 0,
          trendLabel (closes f).length ((closes f).getLastD 0)
            (trailing (rollingMean 20 (closes f)))
            (trailing (rollingMean 50 (closes f)))
            (trailing (rollingMean 200 (closes f)))⟩

/-- The five raw cell values of one Alpha-Vantage daily row. -/
structure RawRow where
  o : JVal
  h : JVal
  l : JVal
  c : JVal
  v : JVal

/-- The canonical Alpha-Vantage field names, in payload order. -/
def stdCols : List String :=
  ["1. open", "2. high", "3. low", "4. close", "5. volume"]

/-- One Alpha-Vantage daily row as a JSON object's field list. -/
def alphaRowFields (r : RawRow) : List (String × JVal) :=
  [("1. open", r.o), ("2. high", r.h), ("3. low", r.l),
   ("4. close", r.c), ("5. volume", r.v)]

/-- A well-shaped Alpha-Vantage payload: `"Time Series (Daily)"` mapping
date strings to daily rows, in the given order. -/
def alphaPayload (rows : List (String × RawRow)) : List (String × JVal) :=
  [("Time Series (Daily)",
    JVal.obj (rows.map (fun p => (p.1, JVal.obj (alphaRowFields p.2)))))]

/-- A well-shaped Yahoo payload: `chart.result[0]` with a `timestamp` array
and the five parallel `indicators.quote[0]` arrays. -/
def yahooPayload (tss os hs ls cs vs : List ℚ) : List (String × JVal) :=
  [("chart", JVal.obj [("result", JVal.arr [JVal.obj
    [("timestamp", JVal.arr (tss.map JVal.num)),
     ("indicators", JVal.obj [("quote", JVal.arr [JVal.obj
       [("open", JVal.arr (os.map JVal.num)),
        ("high", JVal.arr (hs.map JVal.num)),
        ("low", JVal.arr (ls.map JVal.num)),
        ("close", JVal.arr (cs.map JVal.num)),
        ("volume", JVal.arr (vs.map JVal.num))]])])]])])]

/-- Two fully numeric Alpha-Vantage daily rows. -/
def rawA1 : RawRow :=
  ⟨JVal.numStr 10, JVal.numStr 12, JVal.numStr 9, JVal.numStr 11, JVal.numStr 100⟩

/-- Two fully numeric Alpha-Vantage daily rows. -/
def rawA2 : RawRow :=
  ⟨JVal.numStr 11, JVal.numStr 13, JVal.numStr 10, JVal.numStr 12, JVal.numStr 200⟩

/-- A daily row whose close is the non-numeric string `"n/a"`. -/
def rawBad : RawRow :=
  ⟨JVal.numStr 11, JVal.numStr 13, JVal.numStr 10, JVal.badStr "n/a", JVal.numStr 200⟩

/-- A well-formed Alpha-Vantage response: two daily rows, dates ascending. -/
def alphaBodyA : List (String × JVal) :=
  alphaPayload [("2024-01-01", rawA1), ("2024-01-02", rawA2)]

/-- The same two rows listed newest-first, as Alpha Vantage serves them. -/
def alphaBodyDesc : List (String × JVal) :=
  alphaPayload [("2024-01-02", rawA2), ("2024-01-01", rawA1)]

/-- A well-formed response in which one single bar (the second) carries a
non-coercible close field. -/
def alphaBodyBadCell : List (String × JVal) :=
  alphaPayload [("2024-01-01", rawA1), ("2024-01-02", rawBad)]

/-- A well-formed Yahoo response: two bars whose first timestamp collides
with `alphaBodyA`'s second date. -/
def yahooBodyA : List (String × JVal) :=
  yahooPayload [20240102, 20240103] [20, 21] [22, 23] [19, 20] [21, 22] [300, 400]

/-- Transport on which both providers answer with well-formed data. -/
def tGood : Transport :=
  ⟨fun _ => TResp.ok alphaBodyA, fun _ => TResp.ok yahooBodyA⟩

/-- Transport on which both providers fail with a network error. -/
def tAllFail : Transport :=
  ⟨fun _ => TResp.raise .requestError, fun _ => TResp.raise .requestError⟩

/-- Transport on which Alpha Vantage answers with a body `response.json()`
cannot decode (a `ValueError`, which `_fetch_from_source` does not catch)
while Yahoo would answer normally. -/
def tBadAlpha : Transport :=
  ⟨fun _ => TResp.raise .valueError, fun _ => TResp.ok yahooBodyA⟩

/-- The bars of `alphaBodyA` and `yahooBodyA` after normalization. -/
def barA1 : Bar := ⟨10, 12, 9, 11, 100⟩

def barA2 : Bar := ⟨11, 13, 10, 12, 200⟩

def barY1 : Bar := ⟨20, 22, 19, 21, 300⟩

def barY2 : Bar := ⟨21, 23, 20, 22, 400⟩

/-- The merge of the two providers' frames on `tGood`, as the intended
combine step produces it: the union of timestamps, ascending, with the
Alpha-Vantage (first-configured) bar winning the collision at `20240102`. -/
def mergedAB : Frame :=
  [(20240101, barA1), (20240102, barA2), (20240103, barY2)]


/-- Whether all five cells of a raw daily row coerce under `float`. -/
def rowOk (r : RawRow) : Bool :=
  (coerceFloat r.o).isSome && (coerceFloat r.h).isSome && (coerceFloat r.l).isSome
    && (coerceFloat r.c).isSome && (coerceFloat r.v).isSome

/-- The bar a fully coercible raw daily row normalizes to. -/
def rowBar (r : RawRow) : Bar :=
  ⟨(coerceFloat r.o).getD 0, (coerceFloat r.h).getD 0, (coerceFloat r.l).getD 0,
   (coerceFloat r.c).getD 0, (coerceFloat r.v).getD 0⟩

/-- The encoded date of one Alpha-Vantage row key. -/
def dateOf (p : String × RawRow) : ℚ :=
  (parseDate p.1).getD 0

/-- A 20-bar frame with closes 0, 1, …, 19. -/
def frame20 : Frame :=
  (List.range 20).map (fun i => ((i : ℚ), ⟨1, 1, 1, (i : ℚ), 1⟩))

/-- A frame is strictly sorted ascending by timestamp, duplicates excluded. -/
abbrev strictByTs (f : Frame) : Prop :=
  List.Pairwise (· < ·) (f.map Prod.fst)

/-- The bar a frame holds at a timestamp: the first row with that index. -/
def lookupTs (f : Frame) (ts : ℚ) : Option Bar :=
  (f.find? (fun p => p.1 == ts)).map Prod.snd

theorem mapE_map {α β γ : Type} (f : β → Except Exn γ) (e : α → β) (l : List α) :
    mapE f (l.map e) = mapE (fun a => f (e a)) l := by
  induction l with
  | nil => rfl
  | cons a as ih => simp only [List.map_cons, mapE, ih]

theorem mapE_eq_map {α β : Type} {f : α → Except Exn β} {g : α → β} {l : List α}
    (h : ∀ a ∈ l, f a = .ok (g a)) : mapE f l = .ok (l.map g) := by
  induction l with
  | nil => rfl
  | cons a as ih =>
    have ha : f a = .ok (g a) := h a (List.mem_cons_self a as)
    have ih' := ih (fun b hb => h b (List.mem_cons_of_mem a hb))
    simp only [mapE, ha, ih', List.map_cons]

theorem mapE_error {α β : Type} {f : α → Except Exn β} {l : List α} {E : Exn}
    (hall : ∀ b ∈ l, (∃ c, f b = .ok c) ∨ f b = .error E)
    (hex : ∃ a ∈ l, f a = .error E) : mapE f l = .error E := by
  induction l with
  | nil => rcases hex with ⟨a, ha, _⟩; cases ha
  | cons a as ih =>
    rcases hall a (List.mem_cons_self a as) with ⟨c, hc⟩ | hc
    · simp only [mapE, hc]
      rcases hex with ⟨b, hb, hfb⟩
      rcases List.mem_cons.mp hb with rfl | hb'
      · rw [hc] at hfb; cases hfb
      · rw [ih (fun x hx => hall x (List.mem_cons_of_mem a hx)) ⟨b, hb', hfb⟩]
    · simp only [mapE, hc]

theorem mem_firstDedup {y : String} {l : List String} :
    y ∈ firstDedup l ↔ y ∈ l := by
  induction l with
  | nil => simp [firstDedup]
  | cons x xs ih =>
    simp only [firstDedup, List.mem_cons, List.mem_filter, ih, decide_eq_true_eq]
    constructor
    · rintro (rfl | ⟨hy, _⟩)
      · exact Or.inl rfl
      · exact Or.inr hy
    · rintro (rfl | hy)
      · exact Or.inl rfl
      · by_cases hyx : y = x
        · exact Or.inl hyx
        · exact Or.inr ⟨hy, hyx⟩

theorem firstDedup_eq_self {l : List String} (h : l.Nodup) : firstDedup l = l := by
  induction l with
  | nil => rfl
  | cons x xs ih =>
    rcases List.nodup_cons.mp h with ⟨hx, hxs⟩
    simp only [firstDedup, ih hxs, List.cons.injEq, true_and]
    exact List.filter_eq_self.mpr (fun y hy => by
      simp only [decide_eq_true_eq]
      rintro rfl; exact hx hy)

theorem firstDedup_append (l₁ l₂ : List String) :
    firstDedup (l₁ ++ l₂)
      = firstDedup l₁ ++ (firstDedup l₂).filter (fun y => y ∉ l₁) := by
  induction l₁ with
  | nil =>
    simp only [List.nil_append, firstDedup]
    rw [List.filter_eq_self.mpr]
    intro y _
    simp
  | cons x xs ih =>
    show x :: (firstDedup (xs ++ l₂)).filter (fun y => y ≠ x)
        = (x :: (firstDedup xs).filter (fun y => y ≠ x))
          ++ (firstDedup l₂).filter (fun y => y ∉ x :: xs)
    rw [ih, List.filter_append, List.cons_append, List.filter_filter]
    congr 2
    apply List.filter_congr
    intro y _
    by_cases h1 : y = x <;> by_cases h2 : y ∈ xs <;> simp [h1, h2]

theorem firstDedup_append_subset {l₁ l₂ : List String}
    (h : ∀ y ∈ l₂, y ∈ l₁) : firstDedup (l₁ ++ l₂) = firstDedup l₁ := by
  rw [firstDedup_append, List.filter_eq_nil_iff.mpr, List.append_nil]
  intro y hy
  simp only [decide_eq_true_eq] at *
  exact fun hny => hny (h y (mem_firstDedup.mp hy))

theorem alphaRowFields_keys (r : RawRow) :
    (alphaRowFields r).map Prod.fst = stdCols := rfl

theorem cellsOf_alphaRow (r : RawRow) :
    cellsOf (alphaRowFields r) stdCols = [r.o, r.h, r.l, r.c, r.v] := rfl

theorem colsOf_const {rows : List (List (String × JVal))} {K : List String}
    (hne : rows ≠ []) (hk : ∀ r ∈ rows, r.map Prod.fst = K) (hnd : K.Nodup) :
    colsOf rows = K := by
  obtain ⟨r0, rest, rfl⟩ := List.exists_cons_of_ne_nil hne
  unfold colsOf
  rw [List.map_cons, List.flatten_cons, hk r0 (List.mem_cons_self r0 rest),
    firstDedup_append_subset, firstDedup_eq_self hnd]
  intro y hy
  rcases List.mem_flatten.mp hy with ⟨l, hl, hyl⟩
  rcases List.mem_map.mp hl with ⟨r, hr, rfl⟩
  rw [hk r (List.mem_cons_of_mem _ hr)] at hyl
  exact hyl

theorem rowToBar_ok {r : RawRow} (h : rowOk r = true) :
    rowToBar (cellsOf (alphaRowFields r) stdCols) = .ok (rowBar r) := by
  rw [cellsOf_alphaRow]
  unfold rowOk at h
  cases ho : coerceFloat r.o <;> cases hh : coerceFloat r.h <;>
    cases hl : coerceFloat r.l <;> cases hc : coerceFloat r.c <;>
    cases hv : coerceFloat r.v <;>
    simp_all [rowToBar, rowBar]

theorem rowToBar_err {r : RawRow} (h : rowOk r = false) :
    rowToBar (cellsOf (alphaRowFields r) stdCols) = .error .valueError := by
  rw [cellsOf_alphaRow]
  unfold rowOk at h
  cases ho : coerceFloat r.o <;> cases hh : coerceFloat r.h <;>
    cases hl : coerceFloat r.l <;> cases hc : coerceFloat r.c <;>
    cases hv : coerceFloat r.v <;>
    simp_all [rowToBar, rowBar]

theorem parseAlphaDaily_payload (rows : List (String × RawRow))
    (hne : rows ≠ [])
    (hd : ∀ p ∈ rows, (parseDate p.1).isSome = true) :
    parseAlphaDaily (JVal.obj (rows.map (fun p => (p.1, JVal.obj (alphaRowFields p.2)))))
      = match mapE (fun p => rowToBar (cellsOf (alphaRowFields p.2) stdCols)) rows with
        | .error e => .error e
        | .ok bars => .ok ((rows.map dateOf).zip bars) := by
  have h1 : mapE objStage (rows.map (fun p => (p.1, JVal.obj (alphaRowFields p.2))))
      = .ok (rows.map (fun p => (p.1, alphaRowFields p.2))) := by
    rw [mapE_map]
    exact mapE_eq_map (fun a _ => rfl)
  have h2 : mapE dateStage (rows.map (fun p => (p.1, alphaRowFields p.2)))
      = .ok (rows.map dateOf) := by
    rw [mapE_map]
    refine mapE_eq_map (fun a ha => ?_)
    obtain ⟨d, hd'⟩ := Option.isSome_iff_exists.mp (hd a ha)
    simp [dateStage, dateOf, hd']
  have h3 : colsOf ((rows.map (fun p => (p.1, alphaRowFields p.2))).map Prod.snd)
      = stdCols := by
    rw [List.map_map]
    refine colsOf_const ?_ (fun r hr => ?_) (by decide)
    · intro hmap
      exact hne (List.map_eq_nil_iff.mp hmap)
    · rcases List.mem_map.mp hr with ⟨p, hp, rfl⟩
      rfl
  simp only [parseAlphaDaily, h1, h2, h3]
  rw [if_pos (show stdCols.length = 5 from rfl), mapE_map]

theorem parse_alpha_payload_ok (rows : List (String × RawRow))
    (hne : rows ≠ [])
    (hd : ∀ p ∈ rows, (parseDate p.1).isSome = true)
    (hok : ∀ p ∈ rows, rowOk p.2 = true) :
    parse_alpha_response (alphaPayload rows)
      = .ok ((rows.map dateOf).zip (rows.map (fun p => rowBar p.2))) := by
  have hstep : parse_alpha_response (alphaPayload rows)
      = parseAlphaDaily
          (JVal.obj (rows.map (fun p => (p.1, JVal.obj (alphaRowFields p.2))))) := rfl
  rw [hstep, parseAlphaDaily_payload rows hne hd,
    mapE_eq_map (g := fun p => rowBar p.2) (fun a ha => rowToBar_ok (hok a ha))]

theorem parse_alpha_payload_err (rows : List (String × RawRow))
    (hd : ∀ p ∈ rows, (parseDate p.1).isSome = true)
    (hbad : ∃ p ∈ rows, rowOk p.2 = false) :
    parse_alpha_response (alphaPayload rows) = .error .valueError := by
  have hne : rows ≠ [] := by
    rintro rfl
    rcases hbad with ⟨p, hp, _⟩
    cases hp
  have hstep : parse_alpha_response (alphaPayload rows)
      = parseAlphaDaily
          (JVal.obj (rows.map (fun p => (p.1, JVal.obj (alphaRowFields p.2))))) := rfl
  rw [hstep, parseAlphaDaily_payload rows hne hd, mapE_error ?hall ?hex]
  case hall =>
    intro b _
    cases hok : rowOk b.2 with
    | false => exact Or.inr (rowToBar_err hok)
    | true => exact Or.inl ⟨rowBar b.2, rowToBar_ok hok⟩
  case hex =>
    rcases hbad with ⟨p, hp, hpf⟩
    exact ⟨p, hp, rowToBar_err hpf⟩

theorem mapE_coerceTs_num (l : List ℚ) : mapE coerceTs (l.map JVal.num) = .ok l := by
  rw [mapE_map]
  have h := mapE_eq_map (f := fun q : ℚ => coerceTs (JVal.num q)) (g := fun q => q)
    (l := l) (fun a _ => rfl)
  simpa using h

theorem parse_yahoo_payload (tss os hs ls cs vs : List ℚ)
    (h1 : os.length = tss.length) (h2 : hs.length = tss.length)
    (h3 : ls.length = tss.length) (h4 : cs.length = tss.length)
    (h5 : vs.length = tss.length) :
    parse_yahoo_response (yahooPayload tss os hs ls cs vs)
      = .ok (tss.zip (zipBars os hs ls cs vs)) := by
  simp only [parse_yahoo_response, yahooPayload, parseYahooResult, quoteField,
    List.lookup, String.reduceBEq, mapE_coerceTs_num]
  rw [if_pos ⟨h1, h2, h3, h4, h5⟩]

theorem zipBars_length : ∀ (os hs ls cs vs : List ℚ),
    hs.length = os.length → ls.length = os.length → cs.length = os.length →
    vs.length = os.length →
    (zipBars os hs ls cs vs).length = os.length := by
  intro os
  induction os with
  | nil =>
    intro hs ls cs vs _ _ _ _
    cases hs <;> cases ls <;> cases cs <;> cases vs <;> rfl
  | cons o os' ih =>
    intro hs ls cs vs hh hl hc hv
    cases hs with
    | nil => cases hh
    | cons h hs' =>
      cases ls with
      | nil => cases hl
      | cons l ls' =>
        cases cs with
        | nil => cases hc
        | cons c cs' =>
          cases vs with
          | nil => cases hv
          | cons v vs' =>
            simp only [zipBars, List.length_cons] at *
            exact congrArg (· + 1) (ih hs' ls' cs' vs'
              (by omega) (by omega) (by omega) (by omega))

theorem filterMap_keys_map_fst (k : List ℚ) (f : Frame)
    (h : ∀ ts ∈ k, (f.find? (fun p => p.1 == ts)).isSome = true) :
    (k.filterMap
        (fun ts => (f.find? (fun p => p.1 == ts)).map (fun p => (ts, p.2)))).map Prod.fst
      = k := by
  induction k with
  | nil => rfl
  | cons t k' ih =>
    obtain ⟨p0, hp0⟩ := Option.isSome_iff_exists.mp (h t (List.mem_cons_self t k'))
    simp only [List.filterMap_cons, hp0, Option.map_some', List.map_cons]
    rw [ih (fun ts hts => h ts (List.mem_cons_of_mem _ hts))]

theorem dedupSort_strict (f : Frame) : strictByTs (dedupSort f) := by
  unfold strictByTs dedupSort
  rw [filterMap_keys_map_fst]
  · have hs : List.Sorted (· ≤ ·) (((f.map Prod.fst).dedup).insertionSort (· ≤ ·)) :=
      List.sorted_insertionSort _ _
    have hn : (((f.map Prod.fst).dedup).insertionSort (· ≤ ·)).Nodup :=
      ((List.perm_insertionSort _ _).nodup_iff).mpr (List.nodup_dedup _)
    exact (hs.and hn).imp (fun h => lt_of_le_of_ne h.1 h.2)
  · intro ts hts
    have hmem : ts ∈ f.map Prod.fst := by
      rw [← List.mem_dedup]
      exact (List.perm_insertionSort _ _).mem_iff.mp hts
    rcases List.mem_map.mp hmem with ⟨p, hp, rfl⟩
    rw [List.find?_isSome]
    exact ⟨p, hp, by simp⟩

theorem find?_filterMap_keys (k : List ℚ) (f : Frame) (ts : ℚ) :
    ((k.filterMap
        (fun t => (f.find? (fun p => p.1 == t)).map (fun p => (t, p.2)))).find?
          (fun p => p.1 == ts)).map Prod.snd
      = if ts ∈ k then (f.find? (fun p => p.1 == ts)).map Prod.snd else none := by
  induction k with
  | nil => simp
  | cons t k' ih =>
    by_cases hts : ts = t
    · subst hts
      cases hf : f.find? (fun p => p.1 == ts) with
      | none =>
        simp only [List.filterMap_cons, hf, Option.map_none', ih, List.mem_cons]
        by_cases h' : ts ∈ k' <;> simp [h', hf]
      | some p0 =>
        have hp0 : p0.1 = ts := by
          have := List.find?_some hf
          simpa using this
        simp only [List.filterMap_cons, hf, Option.map_some']
        rw [List.find?_cons_of_pos _ (by simp [hp0])]
        simp [hf]
    · cases hf : f.find? (fun p => p.1 == t) with
      | none =>
        simp only [List.filterMap_cons, hf, Option.map_none', ih]
        simp [List.mem_cons, hts]
      | some p0 =>
        have hp0 : p0.1 = t := by
          have := List.find?_some hf
          simpa using this
        simp only [List.filterMap_cons, hf, Option.map_some']
        rw [List.find?_cons_of_neg _ (by
          intro hcontra
          have ht : t = ts := by simpa [hp0] using hcontra
          exact hts ht.symm)]
        rw [ih]
        simp [List.mem_cons, hts]

theorem lookupTs_dedupSort (f : Frame) (ts : ℚ) :
    lookupTs (dedupSort f) ts = lookupTs f ts := by
  unfold lookupTs dedupSort
  rw [find?_filterMap_keys]
  by_cases hmem : ts ∈ ((f.map Prod.fst).dedup).insertionSort (· ≤ ·)
  · rw [if_pos hmem]
  · rw [if_neg hmem]
    have hnone : f.find? (fun p => p.1 == ts) = none := by
      rw [List.find?_eq_none]
      intro p hp hbeq
      refine hmem ?_
      rw [(List.perm_insertionSort _ _).mem_iff, List.mem_dedup]
      exact List.mem_map.mpr ⟨p, hp, by simpa using hbeq⟩
    rw [hnone]
    rfl

theorem lookupTs_append (f g : Frame) (ts : ℚ) :
    lookupTs (f ++ g) ts = (lookupTs f ts).or (lookupTs g ts) := by
  unfold lookupTs
  rw [List.find?_append]
  cases f.find? (fun p => p.1 == ts) <;> rfl

theorem union_self_of_subset {l₁ l₂ : List ℚ} (h : ∀ x ∈ l₁, x ∈ l₂) :
    l₁ ∪ l₂ = l₂ := by
  induction l₁ with
  | nil => rfl
  | cons x xs ih =>
    rw [List.cons_union, ih (fun y hy => h y (List.mem_cons_of_mem _ hy)),
      List.insert_of_mem (h x (List.mem_cons_self _ _))]

theorem dedup_append_self {k : List ℚ} (hk : k.Nodup) : (k ++ k).dedup = k := by
  rw [List.dedup_append, List.dedup_eq_self.mpr hk,
    union_self_of_subset (fun x hx => hx)]

theorem reconstruct_frame (s : Frame) (h : (s.map Prod.fst).Nodup) :
    (s.map Prod.fst).filterMap
      (fun ts => (s.find? (fun p => p.1 == ts)).map (fun p => (ts, p.2))) = s := by
  induction s with
  | nil => rfl
  | cons q rest ih =>
    rcases List.nodup_cons.mp h with ⟨hq1, hrest⟩
    simp only [List.map_cons, List.filterMap_cons]
    rw [List.find?_cons_of_pos _ (by simp)]
    simp only [Option.map_some']
    rw [List.filterMap_congr (g :=
      fun ts => (rest.find? (fun p => p.1 == ts)).map (fun p => (ts, p.2))) ?_]
    · rw [ih hrest]
    · intro ts hts
      have hne : (q.1 == ts) = false := by
        simp only [beq_eq_false_iff_ne, ne_eq]
        rintro rfl
        exact hq1 hts
      rw [List.find?_cons_of_neg _ (by simp [hne])]

theorem dedupSort_eq_self {s : Frame} (hs : strictByTs s) : dedupSort s = s := by
  have hnd : (s.map Prod.fst).Nodup := hs.imp (fun h => ne_of_lt h)
  unfold dedupSort
  rw [List.dedup_eq_self.mpr hnd,
    List.Sorted.insertionSort_eq (hs.imp (fun h => le_of_lt h)),
    reconstruct_frame s hnd]

theorem merge_self {s : Frame} (hs : strictByTs s) :
    dedupSort (concatFrames [s, s]) = s := by
  have hcc : concatFrames [s, s] = s ++ s := by simp [concatFrames]
  have hnd : (s.map Prod.fst).Nodup := hs.imp (fun h => ne_of_lt h)
  rw [hcc]
  unfold dedupSort
  rw [List.map_append, dedup_append_self hnd,
    List.Sorted.insertionSort_eq (hs.imp (fun h => le_of_lt h))]
  rw [List.filterMap_congr (g :=
    fun ts => (s.find? (fun p => p.1 == ts)).map (fun p => (ts, p.2))) ?_]
  · exact reconstruct_frame s hnd
  · intro ts hts
    rw [List.find?_append]
    rcases List.mem_map.mp hts with ⟨p, hp, rfl⟩
    have hsome : (s.find? (fun x => x.1 == p.1)).isSome = true := by
      rw [List.find?_isSome]
      exact ⟨p, hp, by simp⟩
    obtain ⟨x, hx⟩ := Option.isSome_iff_exists.mp hsome
    simp [hx]

theorem rollingMean_getD {w : ℕ} {xs : List ℚ} {i : ℕ} (hi : i < xs.length) :
    (rollingMean w xs).getD i none
      = if w ≤ i + 1 then some (((xs.take (i + 1)).drop (i + 1 - w)).sum / (w : ℚ))
        else none := by
  unfold rollingMean
  rw [List.getD_eq_getElem?_getD, List.getElem?_map, List.getElem?_range hi]
  rfl

theorem rollingMean_all_none {w : ℕ} {xs : List ℚ} (h : xs.length < w) :
    ∀ x ∈ rollingMean w xs, x = none := by
  intro x hx
  unfold rollingMean at hx
  rcases List.mem_map.mp hx with ⟨i, hi, rfl⟩
  rw [if_neg]
  have := List.mem_range.mp hi
  omega

theorem getLastD_none : ∀ (l : List (Option ℚ)) (d : Option ℚ),
    (∀ x ∈ l, x = none) → d = none → l.getLastD d = none := by
  intro l
  induction l with
  | nil => intro d _ hd; exact hd
  | cons a l' ih =>
    intro d h _
    rw [List.getLastD_cons]
    exact ih a (fun x hx => h x (List.mem_cons_of_mem _ hx))
      (h a (List.mem_cons_self _ _))

theorem trailing_rollingMean_short {w : ℕ} {xs : List ℚ} (h : xs.length < w) :
    trailing (rollingMean w xs) = none :=
  getLastD_none _ none (rollingMean_all_none h) rfl

theorem trailing_rollingMean {w : ℕ} {xs : List ℚ} {m : ℕ} (hm : xs.length = m + 1) :
    trailing (rollingMean w xs)
      = if w ≤ m + 1 then some (((xs.take (m + 1)).drop (m + 1 - w)).sum / (w : ℚ))
        else none := by
  unfold trailing rollingMean
  rw [hm, List.range_succ, List.map_append]
  simp only [List.map_cons, List.map_nil]
  rw [List.getLastD_concat]

theorem get_trend_short {f : Frame} (hne : f ≠ []) (hlen : f.length < 20) :
    get_trend_analysis f
      = some ⟨none, none, none, (closes f).getLastD 0, "insufficient-data"⟩ := by
  have hcs : (closes f).length = f.length := List.length_map _ _
  have h20 : trailing (rollingMean 20 (closes f)) = none :=
    trailing_rollingMean_short (by omega)
  have h50 : trailing (rollingMean 50 (closes f)) = none :=
    trailing_rollingMean_short (by omega)
  have h200 : trailing (rollingMean 200 (closes f)) = none :=
    trailing_rollingMean_short (by omega)
  unfold get_trend_analysis
  rw [if_neg hne, h20, h50, h200]
  unfold trendLabel
  rw [if_pos (by omega)]

theorem get_trend_at_20 {f : Frame} (hlen : f.length = 20) :
    get_trend_analysis f
      = some ⟨some ((closes f).sum / 20), none, none, (closes f).getLastD 0,
          trendLabel (closes f).length ((closes f).getLastD 0)
            (some ((closes f).sum / 20)) none none⟩ := by
  have hne : f ≠ [] := by
    intro hf
    rw [hf] at hlen
    cases hlen
  have hcs : (closes f).length = f.length := List.length_map _ _
  have h20 : trailing (rollingMean 20 (closes f)) = some ((closes f).sum / 20) := by
    rw [trailing_rollingMean (m := 19) (by omega), if_pos (by omega)]
    have ht : (closes f).take (19 + 1) = closes f := by
      rw [show (19 : ℕ) + 1 = (closes f).length from by omega, List.take_length]
    rw [ht]
    norm_num
  have h50 : trailing (rollingMean 50 (closes f)) = none :=
    trailing_rollingMean_short (by omega)
  have h200 : trailing (rollingMean 200 (closes f)) = none :=
    trailing_rollingMean_short (by omega)
  unfold get_trend_analysis
  rw [if_neg hne, h20, h50, h200]

theorem fetch_data_fst (t : Transport) (st : AnalyzerState) (symbol : String) :
    (fetch_data t st symbol).1 = st := by
  unfold fetch_data fetch_data_body
  cases (fetchLoop t symbol st.data_sources).2 with
  | error e => rfl
  | ok dfs =>
    by_cases h : dfs = [] <;> simp [h]

theorem consulted_of_alpha_ok {t : Transport} {symbol : String} {o : Option Frame}
    (h : fetch_from_source t symbol "alpha_vantage" = .ok o) :
    consultedSources t analyzerInit symbol = ["alpha_vantage", "yahoo_finance"] := by
  cases h2 : fetch_from_source t symbol "yahoo_finance" <;>
    simp [consultedSources, analyzerInit, fetchLoop, h, h2]

theorem consulted_of_alpha_err {t : Transport} {symbol : String} {e : Exn}
    (h : fetch_from_source t symbol "alpha_vantage" = .error e) :
    consultedSources t analyzerInit symbol = ["alpha_vantage"] := by
  simp [consultedSources, analyzerInit, fetchLoop, h]

theorem consulted_prefix (t : Transport) (symbol : String) :
    consultedSources t analyzerInit symbol = ["alpha_vantage"]
      ∨ consultedSources t analyzerInit symbol = ["alpha_vantage", "yahoo_finance"] := by
  cases h : fetch_from_source t symbol "alpha_vantage" with
  | error e => exact Or.inl (consulted_of_alpha_err h)
  | ok o => exact Or.inr (consulted_of_alpha_ok h)

theorem consulted_both_iff (t : Transport) (symbol : String) :
    consultedSources t analyzerInit symbol = ["alpha_vantage", "yahoo_finance"]
      ↔ ∃ o, fetch_from_source t symbol "alpha_vantage" = .ok o := by
  constructor
  · intro h
    cases hA : fetch_from_source t symbol "alpha_vantage" with
    | error e =>
      rw [consulted_of_alpha_err hA] at h
      exact absurd h (by decide)
    | ok o => exact ⟨o, rfl⟩
  · rintro ⟨o, h⟩
    exact consulted_of_alpha_ok h

/-- C1: for every symbol and provider outcome with at least one non-empty
series, `fetch_data` is claimed to return the union of all bars,
deduplicated by timestamp with the first-configured provider winning.  The
code instead raises `NameError` on the undefined `combined_dat` and returns
`None` (first conjunct, evaluated on a transport where both providers
return well-formed overlapping data).  With the typo read as
`combined_data`, the intended behaviour holds: the second conjunct
evaluates the fixed fetch on the same transport (the collision at
`20240102` is resolved in Alpha Vantage's favour inside `mergedAB`), and
the third proves union-with-first-wins in general — the merged frame's bar
at every timestamp is the first provider's bar when it has one, else the
second's, else absent. -/
theorem c1_merged_union_first_wins :
    fetch_data tGood analyzerInit "AAPL" = (analyzerInit, none)
      ∧ fetch_data_fixed tGood analyzerInit "AAPL"
          = ({ analyzerInit with market_data := mergedAB }, some mergedAB)
      ∧ (∀ (f1 f2 : Frame) (ts : ℚ),
          lookupTs (dedupSort (concatFrames [f1, f2])) ts
            = (lookupTs f1 ts).or (lookupTs f2 ts)) := by
  refine ⟨rfl, rfl, fun f1 f2 ts => ?_⟩
  rw [lookupTs_dedupSort]
  have hcc : concatFrames [f1, f2] = f1 ++ f2 := by simp [concatFrames]
  rw [hcc, lookupTs_append]

/-- C2: whenever `fetch_data` returns `None`, the stored `market_data` is
left unchanged — the state assignment on line 47 sits after the raising
merge line and is only reached in the body's success path. -/
theorem c2_failed_fetch_preserves_state (t : Transport) (st : AnalyzerState)
    (symbol : String) (_h : (fetch_data t st symbol).2 = none) :
    (fetch_data t st symbol).1 = st :=
  fetch_data_fst t st symbol

theorem c2_failed_fetch_preserves_state_witness :
    (fetch_data tAllFail analyzerInit "AAPL").2 = none
      ∧ (fetch_data tAllFail analyzerInit "AAPL").1 = analyzerInit :=
  ⟨rfl, c2_failed_fetch_preserves_state tAllFail analyzerInit "AAPL" rfl⟩

/-- C3 counterexample: a payload with one non-coercible close field is
claimed to lose only that bar; instead `astype(float)` raises `ValueError`
and the parse yields no frame at all — in particular not the one-bar frame
the claim demands. -/
theorem c3_single_bad_bar_cex :
    parse_alpha_response alphaBodyBadCell = .error .valueError
      ∧ parse_alpha_response alphaBodyBadCell ≠ .ok [(20240101, barA1)] := by
  refine ⟨rfl, fun h => ?_⟩
  rw [show parse_alpha_response alphaBodyBadCell = .error .valueError from rfl] at h
  exact Except.noConfusion h

/-- C3 amended: for every well-shaped Alpha-Vantage payload whose dates
parse, a single non-coercible field anywhere makes the whole normalization
raise `ValueError` — the entire series is lost, not just the bad bar. -/
theorem c3_bad_cell_fails_whole_parse (rows : List (String × RawRow))
    (hd : ∀ p ∈ rows, (parseDate p.1).isSome = true)
    (hbad : ∃ p ∈ rows, rowOk p.2 = false) :
    parse_alpha_response (alphaPayload rows) = .error .valueError :=
  parse_alpha_payload_err rows hd hbad

theorem c3_bad_cell_fails_whole_parse_witness :
    (∀ p ∈ [("2024-01-01", rawA1), ("2024-01-02", rawBad)],
        (parseDate p.1).isSome = true)
      ∧ parse_alpha_response
          (alphaPayload [("2024-01-01", rawA1), ("2024-01-02", rawBad)])
          = .error .valueError :=
  ⟨by decide,
   c3_bad_cell_fails_whole_parse [("2024-01-01", rawA1), ("2024-01-02", rawBad)]
     (by decide)
     ⟨("2024-01-02", rawBad),
      List.mem_cons_of_mem _ (List.mem_cons_self _ _), rfl⟩⟩

/-- C4 counterexample: the parsers are claimed never to crash on any input
dictionary; but a Yahoo payload whose `chart.result` is an empty list
raises `IndexError` at `result[0]`, and an Alpha payload whose daily
dictionary is empty raises `ValueError` at the column assignment. -/
theorem c4_parser_crash_cex :
    parse_yahoo_response [("chart", JVal.obj [("result", JVal.arr [])])]
        = .error .indexError
      ∧ parse_alpha_response [("Time Series (Daily)", JVal.obj [])]
          = .error .valueError :=
  ⟨rfl, rfl⟩

/-- C4 amended: when the guarded top-level shape is missing — Alpha when
`'Time Series (Daily)'` is absent, Yahoo when `'chart'` is absent or
`data['chart']` is a dictionary without `'result'` — the parser returns an
empty frame rather than raising.  The original claim's "never crash on any
input dictionary" is false: payloads passing these guards with malformed
inner structure can raise (see the counterexample).  (The empty frame is
not exclusive to guard failures: e.g. a guard-passing Yahoo payload with
empty data arrays also normalizes to an empty frame.) -/
theorem c4_guard_missing_key_empty :
    (∀ data : List (String × JVal), data.lookup "Time Series (Daily)" = none →
        parse_alpha_response data = .ok [])
      ∧ (∀ data : List (String × JVal), data.lookup "chart" = none →
          parse_yahoo_response data = .ok [])
      ∧ (∀ (data cf : List (String × JVal)),
          data.lookup "chart" = some (JVal.obj cf) → cf.lookup "result" = none →
          parse_yahoo_response data = .ok []) := by
  refine ⟨fun data h => ?_, fun data h => ?_, fun data cf h1 h2 => ?_⟩
  · unfold parse_alpha_response
    rw [h]
  · unfold parse_yahoo_response
    rw [h]
  · unfold parse_yahoo_response
    simp only [h1, h2]

theorem c4_guard_missing_key_empty_witness :
    (([] : List (String × JVal)).lookup "Time Series (Daily)" = none
        ∧ parse_alpha_response [] = .ok [])
      ∧ (([] : List (String × JVal)).lookup "chart" = none
        ∧ parse_yahoo_response [] = .ok [])
      ∧ ([("chart", JVal.obj [])].lookup "chart" = some (JVal.obj [])
        ∧ parse_yahoo_response [("chart", JVal.obj [])] = .ok []) :=
  ⟨⟨rfl, c4_guard_missing_key_empty.1 [] rfl⟩,
   ⟨rfl, c4_guard_missing_key_empty.2.1 [] rfl⟩,
   ⟨rfl, c4_guard_missing_key_empty.2.2 [("chart", JVal.obj [])] [] rfl rfl⟩⟩

/-- C5: the canonical series of the merge step is claimed strictly sorted
with no duplicate timestamps, and merging a series with itself is claimed
to be the identity.  The merge step as written never produces a series —
on a transport where both providers return data, the body raises
`NameError` at the `combined_dat` line (first conjunct).  For the merge as
intended (`groupby(index).first().sort_index()` on `combined_data`), the
properties hold: the output keys are pairwise `<` for every input (second
conjunct), and merging a strictly sorted series with itself returns it
unchanged (third conjunct). -/
theorem c5_merge_sorted_dedup_idempotent :
    fetch_data_body tGood analyzerInit "MSFT" = .error .nameError
      ∧ (∀ f : Frame, strictByTs (dedupSort f))
      ∧ (∀ s : Frame, strictByTs s → dedupSort (concatFrames [s, s]) = s) :=
  ⟨rfl, dedupSort_strict, fun _ hs => merge_self hs⟩

theorem c5_merge_sorted_dedup_idempotent_witness :
    strictByTs mergedAB
      ∧ dedupSort (concatFrames [mergedAB, mergedAB]) = mergedAB :=
  ⟨by decide, c5_merge_sorted_dedup_idempotent.2.2 mergedAB (by decide)⟩

/-- C6 counterexample: the claim quantifies over every canonical series
with fewer than 20 bars, but on the empty series `get_trend_analysis`
returns the empty report `{}` — there is no trend report at all, so no
`"insufficient-data"` label is exposed. -/
theorem c6_empty_series_cex : get_trend_analysis ([] : Frame) = none := rfl

/-- C6 amended: for every nonempty canonical series with fewer than 20
bars, the trend report exposes no MA20, MA50 or MA200 value and its label
is `"insufficient-data"`. -/
theorem c6_short_series_insufficient (f : Frame) (hne : f ≠ [])
    (hlen : f.length < 20) :
    ∃ r, get_trend_analysis f = some r ∧ r.ma20 = none ∧ r.ma50 = none
      ∧ r.ma200 = none ∧ r.label = "insufficient-data" :=
  ⟨_, get_trend_short hne hlen, rfl, rfl, rfl, rfl⟩

theorem c6_short_series_insufficient_witness :
    (([(1, barA1)] : Frame) ≠ [] ∧ ([(1, barA1)] : Frame).length < 20)
      ∧ ∃ r, get_trend_analysis [(1, barA1)] = some r ∧ r.ma20 = none
          ∧ r.ma50 = none ∧ r.ma200 = none ∧ r.label = "insufficient-data" :=
  ⟨⟨by decide, by decide⟩,
   c6_short_series_insufficient [(1, barA1)] (by decide) (by decide)⟩

/-- C7: on a canonical series of exactly 20 bars the trailing MA20 is
defined and equals the mean of all 20 closes while MA50 and MA200 are
absent (first conjunct); in general, the rolling average over window `w`
is defined at position `i` exactly when at least `w` bars exist at or
before `i` (second conjunct). -/
theorem c7_ma20_at_20_bars_window_rule :
    (∀ f : Frame, f.length = 20 →
        ∃ r, get_trend_analysis f = some r
          ∧ r.ma20 = some ((closes f).sum / 20)
          ∧ r.ma50 = none ∧ r.ma200 = none)
      ∧ (∀ (w : ℕ) (xs : List ℚ) (i : ℕ), i < xs.length →
          (((rollingMean w xs).getD i none).isSome = true ↔ w ≤ i + 1)) := by
  constructor
  · intro f hf
    exact ⟨_, get_trend_at_20 hf, rfl, rfl, rfl⟩
  · intro w xs i hi
    rw [rollingMean_getD hi]
    by_cases h : w ≤ i + 1 <;> simp [h]

theorem c7_ma20_at_20_bars_window_rule_witness :
    (frame20.length = 20
        ∧ ∃ r, get_trend_analysis frame20 = some r
            ∧ r.ma20 = some ((closes frame20).sum / 20)
            ∧ r.ma50 = none ∧ r.ma200 = none)
      ∧ ((3 : ℕ) < ([1, 2, 3, 4] : List ℚ).length
        ∧ (((rollingMean 2 [1, 2, 3, 4]).getD 3 none).isSome = true ↔ 2 ≤ 3 + 1)) :=
  ⟨⟨by decide, c7_ma20_at_20_bars_window_rule.1 frame20 (by decide)⟩,
   ⟨by decide, c7_ma20_at_20_bars_window_rule.2 2 [1, 2, 3, 4] 3 (by decide)⟩⟩

/-- C8 counterexample: adapter outputs are claimed strictly increasing by
timestamp for every well-formed payload, but the adapters never sort:
a well-formed Alpha-Vantage payload listing its dates newest-first (as the
provider serves them) normalizes to a frame in that same descending
order. -/
theorem c8_adapter_unsorted_cex :
    parse_alpha_response alphaBodyDesc
        = .ok [(20240102, barA2), (20240101, barA1)]
      ∧ ¬ strictByTs [(20240102, barA2), (20240101, barA1)] :=
  ⟨rfl, by decide⟩

/-- C8 amended: adapter outputs preserve the payload's own order — the
Alpha adapter's frame carries the payload's dates in payload order, and
the Yahoo adapter's frame carries the `timestamp` array in array order —
so they are strictly increasing exactly when the payload is. -/
theorem c8_adapter_preserves_payload_order :
    (∀ rows : List (String × RawRow), rows ≠ [] →
        (∀ p ∈ rows, (parseDate p.1).isSome = true) →
        (∀ p ∈ rows, rowOk p.2 = true) →
        ∃ F, parse_alpha_response (alphaPayload rows) = .ok F
          ∧ F.map Prod.fst = rows.map dateOf)
      ∧ (∀ tss os hs ls cs vs : List ℚ,
          os.length = tss.length → hs.length = tss.length →
          ls.length = tss.length → cs.length = tss.length →
          vs.length = tss.length →
          ∃ F, parse_yahoo_response (yahooPayload tss os hs ls cs vs) = .ok F
            ∧ F.map Prod.fst = tss) := by
  constructor
  · intro rows hne hd hok
    have hl : (rows.map dateOf).length ≤ (rows.map (fun p => rowBar p.2)).length := by
      simp
    exact ⟨_, parse_alpha_payload_ok rows hne hd hok, List.map_fst_zip _ _ hl⟩
  · intro tss os hs ls cs vs h1 h2 h3 h4 h5
    have hz : (zipBars os hs ls cs vs).length = os.length :=
      zipBars_length os hs ls cs vs (by omega) (by omega) (by omega) (by omega)
    have hl : tss.length ≤ (zipBars os hs ls cs vs).length := by omega
    exact ⟨_, parse_yahoo_payload tss os hs ls cs vs h1 h2 h3 h4 h5,
      List.map_fst_zip _ _ hl⟩

theorem c8_adapter_preserves_payload_order_witness :
    (∃ F, parse_alpha_response
          (alphaPayload [("2024-01-01", rawA1), ("2024-01-02", rawA2)]) = .ok F
        ∧ F.map Prod.fst
            = [("2024-01-01", rawA1), ("2024-01-02", rawA2)].map dateOf)
      ∧ (∃ F, parse_yahoo_response
            (yahooPayload [20240102, 20240103] [20, 21] [22, 23] [19, 20]
              [21, 22] [300, 400]) = .ok F
          ∧ F.map Prod.fst = [20240102, 20240103]) :=
  ⟨c8_adapter_preserves_payload_order.1
      [("2024-01-01", rawA1), ("2024-01-02", rawA2)]
      (List.cons_ne_nil _ _) (by decide) (by decide),
   c8_adapter_preserves_payload_order.2
      [20240102, 20240103] [20, 21] [22, 23] [19, 20] [21, 22] [300, 400]
      rfl rfl rfl rfl rfl⟩

/-- C9: `fetch_data` never lets an exception escape — whatever the
transport and providers do (including raising arbitrary exceptions), every
exception reaching `fetch_data`'s body is converted by the blanket
`except Exception` into a plain `None` return with the state untouched;
`fetch_data`'s type already guarantees a value is always returned. -/
theorem c9_fetch_data_never_raises (t : Transport) (st : AnalyzerState)
    (symbol : String) (e : Exn) (h : fetch_data_body t st symbol = .error e) :
    fetch_data t st symbol = (st, none) := by
  unfold fetch_data
  rw [h]

theorem c9_fetch_data_never_raises_witness :
    fetch_data_body tGood analyzerInit "AAPL" = .error .nameError
      ∧ fetch_data tGood analyzerInit "AAPL" = (analyzerInit, none) :=
  ⟨rfl, c9_fetch_data_never_raises tGood analyzerInit "AAPL" .nameError rfl⟩

/-- C10 counterexample: `fetch_data` is claimed always to consult exactly
the two providers; but when Alpha Vantage's fetch raises an exception the
per-source handler does not catch (here a `ValueError` from
`response.json()`), the loop aborts into the blanket handler and
`yahoo_finance` is never consulted. -/
theorem c10_only_alpha_consulted_cex :
    consultedSources tBadAlpha analyzerInit "AAPL" = ["alpha_vantage"]
      ∧ ["alpha_vantage"] ≠ ["alpha_vantage", "yahoo_finance"] :=
  ⟨rfl, by decide⟩

/-- C10 amended: the provider list is hardcoded at construction to
`['alpha_vantage', 'yahoo_finance']`; every run of `fetch_data` consults
either `alpha_vantage` alone or both sources in that fixed order, and both
are consulted if and only if Alpha Vantage's per-source fetch returns a
value rather than raising past `_fetch_from_source`'s two handlers (so
`yahoo_finance` is consulted only when Alpha Vantage's fetch returned, and
whenever it returned). -/
theorem c10_hardcoded_sources_in_order :
    analyzerInit.data_sources = ["alpha_vantage", "yahoo_finance"]
      ∧ (∀ (t : Transport) (symbol : String),
          consultedSources t analyzerInit symbol = ["alpha_vantage"]
            ∨ consultedSources t analyzerInit symbol
                = ["alpha_vantage", "yahoo_finance"])
      ∧ (∀ (t : Transport) (symbol : String),
          consultedSources t analyzerInit symbol
              = ["alpha_vantage", "yahoo_finance"]
            ↔ ∃ o, fetch_from_source t symbol "alpha_vantage" = .ok o) :=
  ⟨rfl, consulted_prefix, consulted_both_iff⟩

theorem c10_hardcoded_sources_in_order_witness :
    fetch_from_source tGood "AAPL" "alpha_vantage"
        = .ok (some [(20240101, barA1), (20240102, barA2)])
      ∧ consultedSources tGood analyzerInit "AAPL"
          = ["alpha_vantage", "yahoo_finance"] :=
  ⟨rfl, (c10_hardcoded_sources_in_order.2.2 tGood "AAPL").mpr
    ⟨some [(20240101, barA1), (20240102, barA2)], rfl⟩⟩
